/-
  Verification of `epicbox/utils.py` (epicbox sandbox utility layer).

  Shallow embedding: Python byte strings are `List Nat` (each element a byte
  value), Python `dict` values that may be `None` are `Option Int` (with
  `none` = Python `None`), and presence of a dict key is an outer `Option`.
  Fallible Python code (KeyError / TypeError) is embedded with `Except`.
-/
import Mathlib

namespace Epicbox

/-! ### Byte strings -/

/-- A Python `bytes` object: a list of byte values. -/
abbrev Bytes := List Nat

/-! ### `demultiplex_docker_stream` (utils.py:99-132)

The Python loop walks an index `walker` over `data`, consuming an 8-byte
header `>BxxxL` (stream type byte, 3 ignored bytes, 32-bit big-endian
length) and then `length` payload bytes, while at least 8 bytes remain.
`data[start:end]` with `end` past the end of `data` yields the available
suffix, exactly as `List.take` does.

The loop advances `walker` by at least 8 per iteration, so `data.length`
iterations of fuel always suffice; `demuxGo` is that loop with explicit
fuel, and `demultiplex_docker_stream data = demuxGo data.length data`. -/

/-- One pass of the `while data_length - walker >= 8` loop from
`demultiplex_docker_stream`, with explicit fuel.  A list that fails to
match eight leading bytes is the `data_length - walker < 8` exit. -/
def demuxGo : Nat → Bytes → Bytes × Bytes
  | 0, _ => ([], [])
  | fuel + 1, stream_type :: _ :: _ :: _ :: l3 :: l2 :: l1 :: l0 :: rest =>
      let length := ((l3 * 256 + l2) * 256 + l1) * 256 + l0
      let payload := rest.take length
      let r := demuxGo fuel (rest.drop length)
      if stream_type = 1 then (payload ++ r.1, r.2)
      else if stream_type = 2 then (r.1, payload ++ r.2)
      else r
  | _ + 1, _ => ([], [])

/-- `demultiplex_docker_stream(data)`: split the raw multiplexed docker
attach stream into `(stdout, stderr)`. -/
def demultiplex_docker_stream (data : Bytes) : Bytes × Bytes :=
  demuxGo data.length data

/-- 32-bit big-endian encoding of a length, as written by the docker
engine in a stream frame header (bytes 4-7 of the header). -/
def be32 (n : Nat) : Bytes :=
  [n / 16777216 % 256, n / 65536 % 256, n / 256 % 256, n % 256]

/-- A docker multiplexed-stream frame: selector byte, three zero bytes,
big-endian 32-bit payload length, then the payload. -/
def encodeFrame (s : Nat) (payload : Bytes) : Bytes :=
  s :: 0 :: 0 :: 0 :: (be32 payload.length ++ payload)

/-- Concatenation of the encodings of a list of `(selector, payload)`
frames. -/
def encodeFrames (frames : List (Nat × Bytes)) : Bytes :=
  (frames.map fun f => encodeFrame f.1 f.2).flatten

/-- Concatenation of the payloads of the frames with the given selector,
in order. -/
def payloadsOf (s : Nat) (frames : List (Nat × Bytes)) : Bytes :=
  ((frames.filter fun f => f.1 = s).map Prod.snd).flatten

/-! ### `is_killed_by_sigkill_or_sigxcpu` (utils.py:301-302) -/

/-- `SIGKILL = 9` (utils.py:34). -/
def SIGKILL : Int := 9

/-- `SIGXCPU = 24` (utils.py:35). -/
def SIGXCPU : Int := 24

/-- `is_killed_by_sigkill_or_sigxcpu(status)`: `status - 128 in {SIGKILL, SIGXCPU}`. -/
def is_killed_by_sigkill_or_sigxcpu (status : Int) : Bool :=
  status - 128 = SIGKILL || status - 128 = SIGXCPU

/-! ### Limit sets (utils.py:267-287)

A Python limit dict maps the five limit names to integers or `None`.
A field of the record is `none` when the key is absent, `some v` when the
key is present with value `v`; `v` itself is `Option Int`, with `none`
for Python `None`. -/

/-- A Python value that may be `None` (`none` = Python `None`). -/
abbrev PyVal := Option Int

/-- A limit-set dictionary.  `none` = key absent; `some v` = key present
bound to `v`. -/
structure Limits where
  cputime : Option PyVal := none
  realtime : Option PyVal := none
  memory : Option PyVal := none
  processes : Option PyVal := none
  file_size : Option PyVal := none
deriving Repr, DecidableEq

/-- Python truthiness of a limit dict: `not limits` is true for an empty
dict (and for `None`, handled separately). -/
def Limits.isEmptyDict (l : Limits) : Bool :=
  l.cputime.isNone && l.realtime.isNone && l.memory.isNone &&
    l.processes.isNone && l.file_size.isNone

/-- Modelled from the spec: `config.DEFAULT_LIMITS`, the process-wide
default limit set (the `config` module is not under src/).  §3 lists the
limit fields; the concrete sample values here are chosen consistent with
the §3 invariant that `realtime` is `cputime * K` when derived, and with
§4.3's ulimit rule that `file_size` is an opt-in key (absent by default). -/
def DEFAULT_LIMITS : Limits :=
  { cputime := some (some 1), realtime := some (some 5),
    memory := some (some 64), processes := some (some (-1)),
    file_size := none }

/-- Modelled from the spec: `config.CPU_TO_REAL_TIME_FACTOR`, the fixed
multiplier `K` of §3 (the `config` module is not under src/); chosen so
that `DEFAULT_LIMITS` satisfies `realtime = cputime * K`. -/
def CPU_TO_REAL_TIME_FACTOR : Int := 5

/-- The `for limit_name, default_value in config.DEFAULT_LIMITS.items()`
loop of `merge_limits_defaults`: every key of the default set that is
missing from `limits` is written into `limits` with its default value
(keys not in the default set are never written). -/
def fillDefaults (l : Limits) : Limits where
  cputime := l.cputime <|> DEFAULT_LIMITS.cputime
  realtime := l.realtime <|> DEFAULT_LIMITS.realtime
  memory := l.memory <|> DEFAULT_LIMITS.memory
  processes := l.processes <|> DEFAULT_LIMITS.processes
  file_size := l.file_size <|> DEFAULT_LIMITS.file_size

/-- Observable effect of one `merge_limits_defaults` call.  `argAfter` is
the contents of the caller-supplied dict after the call (`none` when the
caller passed `None`); the two flags record which existing object the
returned reference aliases. -/
structure MergeOut where
  result : Limits
  argAfter : Option Limits
  returnsGlobal : Bool
  returnsArg : Bool
deriving Repr, DecidableEq

/-- `merge_limits_defaults(limits)` (utils.py:267-276).  The source
mutates `limits` in place and returns it; when `limits` is `None` or
empty it returns the `config.DEFAULT_LIMITS` object itself.  A missing
`cputime` key at the `limits["cputime"]` read is a `KeyError`; a `None`
value there makes `limits["cputime"] * K` a `TypeError`. -/
def merge_limits_defaults (limits : Option Limits) : Except String MergeOut :=
  match limits with
  | none => .ok ⟨DEFAULT_LIMITS, none, true, false⟩
  | some l =>
    if l.isEmptyDict then .ok ⟨DEFAULT_LIMITS, some l, true, false⟩
    else
      let is_realtime_specified := l.realtime.isSome
      let l1 := fillDefaults l
      if is_realtime_specified then .ok ⟨l1, some l1, false, true⟩
      else
        match l1.cputime with
        | none => .error "KeyError: cputime"
        | some none => .error "TypeError: NoneType * int"
        | some (some c) =>
          let l2 := { l1 with
            realtime := some (some (c * CPU_TO_REAL_TIME_FACTOR)) }
          .ok ⟨l2, some l2, false, true⟩

/-- `docker.types.Ulimit(name=..., soft=..., hard=...)`. -/
structure Ulimit where
  name : String
  soft : PyVal
  hard : PyVal
deriving Repr, DecidableEq

/-- Python truthiness of an int-or-`None` value: `None` and `0` are falsy. -/
def pyTruthy : PyVal → Bool
  | none => false
  | some n => n ≠ 0

/-- `create_ulimits(limits)` (utils.py:279-287): a CPU ulimit when
`limits["cputime"]` is truthy (reading it raises `KeyError` when the key
is absent), an fsize ulimit when the `file_size` key is present, and
`None` instead of an empty list. -/
def create_ulimits (limits : Limits) : Except String (Option (List Ulimit)) :=
  match limits.cputime with
  | none => .error "KeyError: cputime"
  | some cpuv =>
    let ulimits : List Ulimit :=
      (if pyTruthy cpuv then [⟨"cpu", cpuv, cpuv⟩] else []) ++
      (match limits.file_size with
       | some fs => [⟨"fsize", fs, fs⟩]
       | none => [])
    .ok (if ulimits.isEmpty then none else some ulimits)

/-! ### `truncate_result` (utils.py:290-298) -/

/-- A value stored in a result dict: a byte string (stdout/stderr) or any
other Python object (exit code, duration, flags, ...), which has no
`len`. -/
inductive PyObjV where
  | bytes (b : Bytes)
  | other (o : Int)
deriving Repr, DecidableEq

/-- `MAX_OUTPUT_LENGTH = 100` (local constant of `truncate_result`). -/
def MAX_OUTPUT_LENGTH : Nat := 100

/-- The fixed truncation marker `b" *** truncated ***"`. -/
def TRUNCATED_MARKER : Bytes := " *** truncated ***".toList.map Char.toNat

/-- `truncate_result(result)` (utils.py:290-298): rebuild the dict entry
by entry; a `stdout`/`stderr` value longer than the cap is replaced by
its first `MAX_OUTPUT_LENGTH` bytes plus the marker.  `len(v)` on a
non-sized value is a `TypeError`. -/
def truncate_result :
    List (String × PyObjV) → Except String (List (String × PyObjV))
  | [] => .ok []
  | (k, v) :: rest => do
    let entry ←
      if k = "stdout" ∨ k = "stderr" then
        match v with
        | .bytes b =>
          if b.length > MAX_OUTPUT_LENGTH then
            pure (k, PyObjV.bytes (b.take MAX_OUTPUT_LENGTH ++ TRUNCATED_MARKER))
          else pure (k, PyObjV.bytes b)
        | .other _ => .error "TypeError: len() of unsized object"
      else pure (k, v)
    let rest' ← truncate_result rest
    pure (entry :: rest')

/-! ### `get_docker_client` client cache (utils.py:29, 37-59) -/

/-- Modelled from the spec: `config.DOCKER_URL`, the default engine URL
(the `config` module is not under src/; §1 treats engine connection setup
as an external collaborator, so only its role as default matters). -/
def DOCKER_URL : String := "http://docker-engine"

/-- Modelled from the spec: `config.DOCKER_TIMEOUT` (config not in src/). -/
def DOCKER_TIMEOUT : Int := 60

/-- Modelled from the spec: `config.DOCKER_MAX_READ_RETRIES`
(config not in src/), default for `retry_read`. -/
def DOCKER_MAX_READ_RETRIES : Int := 2

/-- An engine client object as built by `get_docker_client`: `id` models
Python object identity, the remaining fields the construction arguments
that vary between calls (the retry constants that never vary are
omitted). -/
structure DockerClient where
  id : Nat
  base_url : String
  timeout : Int
  retry_read : Int
  retry_status_forcelist : List Int
deriving Repr, DecidableEq

/-- The module-level `_DOCKER_CLIENTS` dict plus a supply of fresh object
identities. -/
structure ClientCacheState where
  cache : List ((Int × List Int) × DockerClient)
  nextId : Nat
deriving Repr, DecidableEq

/-- Dict lookup in the `_DOCKER_CLIENTS` cache. -/
def lookupClient (key : Int × List Int) :
    List ((Int × List Int) × DockerClient) → Option DockerClient
  | [] => none
  | (k, c) :: rest => if k = key then some c else lookupClient key rest

/-- `get_docker_client(base_url, retry_read, retry_status_forcelist)`
(utils.py:37-59): the cache key is `(retry_read, retry_status_forcelist)`
only; on a miss a client is built with `base_url or config.DOCKER_URL`
(Python `or`: `None` and `""` are falsy) and cached; on a hit the cached
client is returned and `base_url` is never consulted. -/
def get_docker_client (st : ClientCacheState) (base_url : Option String)
    (retry_read : Int) (retry_status_forcelist : List Int) :
    DockerClient × ClientCacheState :=
  let client_key := (retry_read, retry_status_forcelist)
  match lookupClient client_key st.cache with
  | some c => (c, st)
  | none =>
    let client : DockerClient :=
      { id := st.nextId
        base_url := match base_url with
                    | some u => if u = "" then DOCKER_URL else u
                    | none => DOCKER_URL
        timeout := DOCKER_TIMEOUT
        retry_read := retry_read
        retry_status_forcelist := retry_status_forcelist }
    (client, { cache := (client_key, client) :: st.cache,
               nextId := st.nextId + 1 })

/-! ### `docker_communicate` (utils.py:156-260)

The I/O pump is embedded as a loop over an explicit finite trace of
environment events.  Each loop iteration first evaluates the `while`
condition with a fresh monotonic-clock reading (the event's `now`), then
performs the `select` poll whose result is the event's readiness flags,
then the read and write steps whose outcomes are the event's `read_res`
and `write_res`.  When the trace is exhausted the condition is evaluated
once more at time `tEnd`; a still-live session at that point has no
corresponding real execution and is reported as `ranOut`. -/

/-- Outcome of `_socket_read`: received bytes (`[]` is engine EOF, turned
into `None` by the `or None`), or `ConnectionResetError`. -/
inductive ReadRes where
  | bytes (b : Bytes)
  | reset
deriving Repr, DecidableEq

/-- Outcome of `_socket_write`: `os.write` wrote `n` bytes (a recoverable
`OSError` from `ERRNO_RECOVERABLE` is returned by `_socket_write` as 0,
so it is a `written 0`), or `BrokenPipeError`. -/
inductive WriteRes where
  | written (n : Nat)
  | brokenPipe
deriving Repr, DecidableEq

/-- One loop iteration's environment: the clock reading at the `while`
condition, the `select` readiness results, and the socket outcomes
(consulted only when the corresponding branch runs). -/
structure IterEvent where
  now : Nat
  read_ready : Bool
  write_ready : Bool
  read_res : ReadRes
  write_res : WriteRes
deriving Repr, DecidableEq

/-- Observable side effects of `docker_communicate` on the socket and the
container. -/
inductive SockAction where
  | shutdownWr
  | close
  | containerStart
  | containerStop
deriving Repr, DecidableEq

/-- Result of a `docker_communicate` call: a normal return carrying the
demultiplexed buffer, a raised `TimeoutError`, or a session still live
when the finite trace ended (`ranOut` — excluded once the trace reaches
the deadline). -/
inductive CommOutcome where
  | finished (stdout stderr : Bytes)
  | timedOut
  | ranOut
deriving Repr, DecidableEq

/-- The `while timeout is None or time.monotonic() - start_time < timeout`
condition. -/
def deadlineOk : Option Nat → Nat → Nat → Bool
  | none, _, _ => true
  | some t, start_time, now => now - start_time < t

/-- The main loop of `docker_communicate` (utils.py:215-259), including
the `while`/`else` clause: a `break` closes the socket and returns the
demultiplexed accumulated buffer; a condition failure closes the socket
and raises `TimeoutError`. -/
def commLoop (timeout : Option Nat) (start_time : Nat) :
    List IterEvent → Nat → Bytes → Bytes → List SockAction →
    CommOutcome × List SockAction
  | [], tEnd, _, _, log =>
      if deadlineOk timeout start_time tEnd then (.ranOut, log)
      else (.timedOut, log ++ [.close])
  | ev :: evs, tEnd, stdin, buf, log =>
      if deadlineOk timeout start_time ev.now then
        let bufRes : Option Bytes :=
          if ev.read_ready then
            match ev.read_res with
            | .reset => none
            | .bytes b => if b.isEmpty then none else some (buf ++ b)
          else some buf
        match bufRes with
        | none =>
          (.finished (demultiplex_docker_stream buf).1
             (demultiplex_docker_stream buf).2, log ++ [.close])
        | some buf' =>
          if ev.write_ready && !stdin.isEmpty then
            match ev.write_res with
            | .brokenPipe =>
              (.finished (demultiplex_docker_stream buf').1
                 (demultiplex_docker_stream buf').2, log ++ [.close])
            | .written n =>
              let stdin' := stdin.drop n
              let log' := if stdin'.isEmpty then log ++ [.shutdownWr] else log
              commLoop timeout start_time evs tEnd stdin' buf' log'
          else commLoop timeout start_time evs tEnd stdin buf' log
      else (.timedOut, log ++ [.close])

/-- `docker_communicate(container, stdin, start_container, timeout)`
(utils.py:156-260): attach (external), half-close the write direction
when there is no input, start the container when requested, then run the
pump loop. -/
def docker_communicate (stdin : Bytes) (start_container : Bool)
    (timeout : Option Nat) (start_time : Nat) (trace : List IterEvent)
    (tEnd : Nat) : CommOutcome × List SockAction :=
  let log0 := (if stdin.isEmpty then [SockAction.shutdownWr] else []) ++
              (if start_container then [SockAction.containerStart] else [])
  commLoop timeout start_time trace tEnd stdin [] log0

end Epicbox

namespace Epicbox

/-! ### Fuel bookkeeping for the demultiplexer -/

theorem demuxGo_nil (fuel : Nat) : demuxGo fuel [] = ([], []) := by
  cases fuel <;> rfl

theorem demuxGo_fuel_mono (fuel fuel' : Nat) (data : Bytes)
    (h : data.length ≤ fuel) (h' : fuel ≤ fuel') :
    demuxGo fuel data = demuxGo fuel' data := by
  induction fuel generalizing fuel' data with
  | zero =>
    have : data = [] := List.length_eq_zero.mp (Nat.le_zero.mp h)
    subst this
    rw [demuxGo_nil, demuxGo_nil]
  | succ k ih =>
    match fuel', h' with
    | fuel' + 1, h' =>
      match data with
      | [] => rw [demuxGo_nil, demuxGo_nil]
      | [a] => rfl
      | [a, b] => rfl
      | [a, b, c] => rfl
      | [a, b, c, d] => rfl
      | [a, b, c, d, e] => rfl
      | [a, b, c, d, e, f] => rfl
      | [a, b, c, d, e, f, g] => rfl
      | s :: x1 :: x2 :: x3 :: l3 :: l2 :: l1 :: l0 :: rest =>
        have hlen : (rest.drop (((l3 * 256 + l2) * 256 + l1) * 256 + l0)).length ≤ k := by
          have h1 : rest.length ≤ k - 7 := by
            simp only [List.length_cons] at h
            omega
          have h2 := List.length_drop (((l3 * 256 + l2) * 256 + l1) * 256 + l0) rest
          omega
        have hk' : k ≤ fuel' := Nat.le_of_succ_le_succ h'
        simp only [demuxGo, ih fuel' _ hlen hk']

theorem demux_eq_go (fuel : Nat) (data : Bytes) (h : data.length ≤ fuel) :
    demultiplex_docker_stream data = demuxGo fuel data :=
  demuxGo_fuel_mono data.length fuel data (le_refl _) h

theorem be32_decode (n : Nat) (h : n < 4294967296) :
    ((n / 16777216 % 256 * 256 + n / 65536 % 256) * 256 + n / 256 % 256) * 256
      + n % 256 = n := by
  omega

/-- Decoding one well-formed frame at the front of the stream: the payload
is routed by the selector byte and decoding continues on the remainder. -/
theorem demux_frame (s : Nat) (p rest : Bytes) (hp : p.length < 4294967296) :
    demultiplex_docker_stream (encodeFrame s p ++ rest) =
      (let r := demultiplex_docker_stream rest
       if s = 1 then (p ++ r.1, r.2)
       else if s = 2 then (r.1, p ++ r.2) else r) := by
  have hshape : encodeFrame s p ++ rest =
      s :: 0 :: 0 :: 0 :: p.length / 16777216 % 256 :: p.length / 65536 % 256 ::
        p.length / 256 % 256 :: p.length % 256 :: (p ++ rest) := by
    simp [encodeFrame, be32]
  rw [hshape]
  rw [demux_eq_go ((p ++ rest).length + 7 + 1) _
    (by simp only [List.length_cons]; omega)]
  simp only [demuxGo]
  rw [be32_decode p.length hp]
  rw [List.take_left, List.drop_left]
  rw [← demux_eq_go ((p ++ rest).length + 7) rest
    (by simp only [List.length_append]; omega)]

theorem demuxGo_short (fuel : Nat) (data : Bytes) (h : data.length < 8) :
    demuxGo fuel data = ([], []) := by
  match fuel, data with
  | 0, _ => rfl
  | _ + 1, [] => rfl
  | _ + 1, [a] => rfl
  | _ + 1, [a, b] => rfl
  | _ + 1, [a, b, c] => rfl
  | _ + 1, [a, b, c, d] => rfl
  | _ + 1, [a, b, c, d, e] => rfl
  | _ + 1, [a, b, c, d, e, f] => rfl
  | _ + 1, [a, b, c, d, e, f, g] => rfl
  | _ + 1, a :: b :: c :: d :: e :: f :: g :: i :: rest => simp at h; omega

theorem payloadsOf_cons (s : Nat) (f : Nat × Bytes) (fs : List (Nat × Bytes)) :
    payloadsOf s (f :: fs) =
      (if f.1 = s then f.2 else []) ++ payloadsOf s fs := by
  simp only [payloadsOf, List.filter_cons]
  split <;> simp_all

/-- A frame whose header declares more payload than remains: the available
suffix is taken, and nothing remains to decode. -/
theorem demux_truncated_frame (s x1 x2 x3 L : Nat) (p : Bytes)
    (hp : p.length < L) (hL : L < 4294967296) :
    demultiplex_docker_stream (s :: x1 :: x2 :: x3 :: (be32 L ++ p)) =
      (if s = 1 then (p, []) else if s = 2 then ([], p) else ([], [])) := by
  have hshape : s :: x1 :: x2 :: x3 :: (be32 L ++ p) =
      s :: x1 :: x2 :: x3 :: L / 16777216 % 256 :: L / 65536 % 256 ::
        L / 256 % 256 :: L % 256 :: p := by
    simp [be32]
  rw [hshape]
  rw [demux_eq_go (p.length + 7 + 1) _ (by simp only [List.length_cons]; omega)]
  simp only [demuxGo]
  rw [be32_decode L hL]
  rw [List.take_of_length_le (le_of_lt hp), List.drop_eq_nil_of_le (le_of_lt hp)]
  rw [demuxGo_nil]
  split <;> simp_all

end Epicbox

namespace Epicbox

/-! ### Claim theorems for the stream demultiplexer -/

/-- C1: for every finite sequence of frames, each an 8-byte header
(stream selector 1 or 2, three ignored bytes, 32-bit big-endian payload
length) followed by exactly that many payload bytes,
`demultiplex_docker_stream` applied to the concatenation of the encoded
frames returns exactly the concatenation of the selector-1 payloads as
stdout and of the selector-2 payloads as stderr, in frame order. -/
theorem demux_reconstructs_streams (frames : List (Nat × Bytes))
    (h : ∀ f ∈ frames, (f.1 = 1 ∨ f.1 = 2) ∧ f.2.length < 4294967296) :
    demultiplex_docker_stream (encodeFrames frames) =
      (payloadsOf 1 frames, payloadsOf 2 frames) := by
  induction frames with
  | nil => rfl
  | cons f fs ih =>
    obtain ⟨s, p⟩ := f
    obtain ⟨hs, hlen⟩ := h ⟨s, p⟩ (List.mem_cons_self _ _)
    have ih' := ih (fun g hg => h g (List.mem_cons_of_mem _ hg))
    simp only [encodeFrames, List.map_cons, List.flatten_cons] at *
    rw [show (encodeFrame s p ++ (fs.map fun f => encodeFrame f.1 f.2).flatten) =
      encodeFrame s p ++ encodeFrames fs from rfl]
    rw [demux_frame s p _ hlen]
    rw [show demultiplex_docker_stream (encodeFrames fs) =
      (payloadsOf 1 fs, payloadsOf 2 fs) from ih']
    rcases hs with hs1 | hs2
    · subst hs1
      simp [payloadsOf_cons]
    · subst hs2
      simp [payloadsOf_cons]

/-- C1 witness: a concrete three-frame stream decodes to the concatenated
selector-1 and selector-2 payloads. -/
theorem demux_reconstructs_streams_witness :
    demultiplex_docker_stream
        (encodeFrames [(1, [104, 105]), (2, [101]), (1, [33])]) =
      (payloadsOf 1 [(1, [104, 105]), (2, [101]), (1, [33])],
       payloadsOf 2 [(1, [104, 105]), (2, [101]), (1, [33])]) :=
  demux_reconstructs_streams _ (by decide)

/-- C5: `demultiplex_docker_stream` is total on every byte string
(established by its definition as a Lean function): a trailing fragment
shorter than 8 bytes yields no further frames (not an error); a frame with
selector 1 routes its payload to stdout, selector 2 to stderr, and any
other selector's payload is skipped, contributing to neither stream; a
declared payload length exceeding the remaining bytes yields the
available suffix. -/
theorem demux_total_behavior :
    (∀ data : Bytes, data.length < 8 →
      demultiplex_docker_stream data = ([], [])) ∧
    (∀ s : Nat, ∀ p rest : Bytes, s ≠ 1 → s ≠ 2 → p.length < 4294967296 →
      demultiplex_docker_stream (encodeFrame s p ++ rest) =
        demultiplex_docker_stream rest) ∧
    (∀ p rest : Bytes, p.length < 4294967296 →
      demultiplex_docker_stream (encodeFrame 1 p ++ rest) =
        (p ++ (demultiplex_docker_stream rest).1,
         (demultiplex_docker_stream rest).2)) ∧
    (∀ p rest : Bytes, p.length < 4294967296 →
      demultiplex_docker_stream (encodeFrame 2 p ++ rest) =
        ((demultiplex_docker_stream rest).1,
         p ++ (demultiplex_docker_stream rest).2)) ∧
    (∀ s x1 x2 x3 L : Nat, ∀ p : Bytes, p.length < L → L < 4294967296 →
      demultiplex_docker_stream (s :: x1 :: x2 :: x3 :: (be32 L ++ p)) =
        (if s = 1 then (p, []) else if s = 2 then ([], p) else ([], []))) := by
  refine ⟨?_, ?_, ?_, ?_, ?_⟩
  · intro data h
    unfold demultiplex_docker_stream
    exact demuxGo_short _ _ h
  · intro s p rest hs1 hs2 hp
    rw [demux_frame s p rest hp]
    simp [hs1, hs2]
  · intro p rest hp
    rw [demux_frame 1 p rest hp]
    simp
  · intro p rest hp
    rw [demux_frame 2 p rest hp]
    simp
  · intro s x1 x2 x3 L p hp hL
    exact demux_truncated_frame s x1 x2 x3 L p hp hL

/-- C5 witness: a 7-byte fragment decodes to empty streams; a skipped
selector-3 frame contributes nothing; an over-declared length yields the
available suffix. -/
theorem demux_total_behavior_witness :
    demultiplex_docker_stream [9, 9, 9, 9, 9, 9, 9] = ([], []) ∧
    demultiplex_docker_stream (encodeFrame 3 [55] ++ []) =
      demultiplex_docker_stream [] ∧
    demultiplex_docker_stream (3 :: 0 :: 0 :: 0 :: (be32 5 ++ [77, 88])) =
      (if 3 = 1 then ([77, 88], []) else if 3 = 2 then ([], [77, 88])
       else ([], [])) :=
  ⟨demux_total_behavior.1 _ (by decide),
   demux_total_behavior.2.1 3 [55] [] (by decide) (by decide) (by decide),
   demux_total_behavior.2.2.2.2 3 0 0 0 5 [77, 88] (by decide) (by decide)⟩

/-! ### Claim theorems for the limit translator -/

/-- C3 counterexample: merging `{cputime: 10}` mutates the caller-supplied
dictionary — after the call the argument object holds the fully merged
set, not its original single entry — and the returned object is the
argument itself, not a freshly built structure. -/
theorem merge_limits_defaults_mutation_counterexample :
    merge_limits_defaults (some { cputime := some (some 10) }) =
      Except.ok
        { result := { cputime := some (some 10), realtime := some (some 50),
                      memory := some (some 64), processes := some (some (-1)),
                      file_size := none },
          argAfter := some { cputime := some (some 10),
                             realtime := some (some 50),
                             memory := some (some 64),
                             processes := some (some (-1)),
                             file_size := none },
          returnsGlobal := false, returnsArg := true } ∧
    ({ cputime := some (some 10) } : Limits) ≠
      { cputime := some (some 10), realtime := some (some 50),
        memory := some (some 64), processes := some (some (-1)),
        file_size := none } :=
  ⟨rfl, by decide⟩

/-- C3 (amended): `merge_limits_defaults` never builds a fresh structure:
on an absent or empty limit set it returns the process-wide default
object itself with the argument left unchanged, and otherwise it fills
the missing fields into the caller-supplied dictionary in place and
returns that same dictionary; the contents of the global default set are
never written (even when the caller passes the default set back in, no
field of it is rewritten). -/
theorem merge_limits_defaults_aliasing (limits : Option Limits)
    (out : MergeOut) (h : merge_limits_defaults limits = Except.ok out) :
    (out.returnsGlobal = true ∨ out.returnsArg = true) ∧
    (out.returnsGlobal = true →
      out.result = DEFAULT_LIMITS ∧ out.argAfter = limits) ∧
    (out.returnsArg = true → out.argAfter = some out.result) ∧
    (limits = some DEFAULT_LIMITS → out.argAfter = some DEFAULT_LIMITS) := by
  match limits with
  | none =>
    simp only [merge_limits_defaults] at h
    cases h
    refine ⟨Or.inl rfl, fun _ => ⟨rfl, rfl⟩, by simp, by simp⟩
  | some l =>
    simp only [merge_limits_defaults] at h
    by_cases he : l.isEmptyDict
    · rw [if_pos he] at h
      cases h
      refine ⟨Or.inl rfl, fun _ => ⟨rfl, rfl⟩, by simp, ?_⟩
      intro hg
      injection hg with hg
      subst hg
      simp [Limits.isEmptyDict, DEFAULT_LIMITS] at he
    · rw [if_neg he] at h
      by_cases hr : l.realtime.isSome
      · rw [if_pos hr] at h
        cases h
        refine ⟨Or.inr rfl, by simp, fun _ => rfl, ?_⟩
        intro hg
        injection hg with hg
        subst hg
        simp [fillDefaults, DEFAULT_LIMITS]
      · rw [if_neg hr] at h
        match hc : (fillDefaults l).cputime, h with
        | some (some c), h =>
          cases h
          refine ⟨Or.inr rfl, by simp, fun _ => rfl, ?_⟩
          intro hg
          injection hg with hg
          subst hg
          simp [DEFAULT_LIMITS] at hr
        | none, h => cases h
        | some none, h => cases h

/-- C3 amended witness: the aliasing facts at the concrete input
`{cputime: 10}`. -/
theorem merge_limits_defaults_aliasing_witness :
    let out : MergeOut :=
      { result := { cputime := some (some 10), realtime := some (some 50),
                    memory := some (some 64), processes := some (some (-1)),
                    file_size := none },
        argAfter := some { cputime := some (some 10),
                           realtime := some (some 50),
                           memory := some (some 64),
                           processes := some (some (-1)),
                           file_size := none },
        returnsGlobal := false, returnsArg := true }
    (out.returnsGlobal = true ∨ out.returnsArg = true) ∧
    (out.returnsGlobal = true →
      out.result = DEFAULT_LIMITS ∧ out.argAfter = some { cputime := some (some 10) }) ∧
    (out.returnsArg = true → out.argAfter = some out.result) ∧
    (some ({ cputime := some (some 10) } : Limits) = some DEFAULT_LIMITS →
      out.argAfter = some DEFAULT_LIMITS) :=
  merge_limits_defaults_aliasing (some { cputime := some (some 10) }) _ rfl

/-- C4: whenever `cputime` is present in the merged set, a `realtime` the
caller did not explicitly supply comes out as `cputime` times the factor
`K`, and a caller-supplied `realtime` is kept unchanged. -/
theorem merge_limits_defaults_realtime (limits : Option Limits)
    (out : MergeOut) (c : Int)
    (h : merge_limits_defaults limits = Except.ok out)
    (hcpu : out.result.cputime = some (some c)) :
    ((match limits with | some l => l.realtime | none => none) = none →
      out.result.realtime = some (some (c * CPU_TO_REAL_TIME_FACTOR))) ∧
    (∀ rv : PyVal,
      (match limits with | some l => l.realtime | none => none) = some rv →
      out.result.realtime = some rv) := by
  match limits with
  | none =>
    simp only [merge_limits_defaults] at h
    cases h
    simp only [DEFAULT_LIMITS] at hcpu ⊢
    injection hcpu with hcpu
    injection hcpu with hcpu
    refine ⟨fun _ => ?_, by simp⟩
    rw [← hcpu]
    rfl
  | some l =>
    simp only [merge_limits_defaults] at h
    by_cases he : l.isEmptyDict
    · rw [if_pos he] at h
      cases h
      have hrt : l.realtime = none := by
        simp [Limits.isEmptyDict] at he
        exact Option.isNone_iff_eq_none.mp (by simp [he])
      simp only [DEFAULT_LIMITS] at hcpu ⊢
      injection hcpu with hcpu
      injection hcpu with hcpu
      refine ⟨fun _ => ?_, ?_⟩
      · rw [← hcpu]; rfl
      · intro rv hrv
        rw [hrt] at hrv
        cases hrv
    · rw [if_neg he] at h
      by_cases hr : l.realtime.isSome
      · rw [if_pos hr] at h
        cases h
        refine ⟨?_, ?_⟩
        · intro habs
          replace habs : l.realtime = none := habs
          rw [habs] at hr
          cases hr
        · intro rv hrv
          replace hrv : l.realtime = some rv := hrv
          show (l.realtime <|> DEFAULT_LIMITS.realtime) = some rv
          rw [hrv]
          rfl
      · rw [if_neg hr] at h
        match hc : (fillDefaults l).cputime, h with
        | some (some c'), h =>
          cases h
          replace hcpu : some (some c') = some (some c) := hcpu
          injection hcpu with hcpu
          injection hcpu with hcpu
          subst hcpu
          refine ⟨fun _ => rfl, ?_⟩
          intro rv hrv
          replace hrv : l.realtime = some rv := hrv
          rw [hrv] at hr
          cases hr rfl
        | none, h => cases h
        | some none, h => cases h

/-- C4 witness: merging `{cputime: 10}` (no `realtime`) yields
`realtime = 10 * K`. -/
theorem merge_limits_defaults_realtime_witness :
    ((match (some { cputime := some (some 10) } : Option Limits) with
        | some l => l.realtime | none => none) = none →
      ({ cputime := some (some 10), realtime := some (some 50),
         memory := some (some 64), processes := some (some (-1)),
         file_size := none } : Limits).realtime =
        some (some (10 * CPU_TO_REAL_TIME_FACTOR))) ∧
    (∀ rv : PyVal,
      (match (some { cputime := some (some 10) } : Option Limits) with
        | some l => l.realtime | none => none) = some rv →
      ({ cputime := some (some 10), realtime := some (some 50),
         memory := some (some 64), processes := some (some (-1)),
         file_size := none } : Limits).realtime = some rv) :=
  merge_limits_defaults_realtime (some { cputime := some (some 10) })
    { result := { cputime := some (some 10), realtime := some (some 50),
                  memory := some (some 64), processes := some (some (-1)),
                  file_size := none },
      argAfter := some { cputime := some (some 10),
                         realtime := some (some 50),
                         memory := some (some 64),
                         processes := some (some (-1)),
                         file_size := none },
      returnsGlobal := false, returnsArg := true } 10 rfl rfl

/-- C9: merging an absent (`None`) or empty limit set twice yields the
same fully-defaulted set as merging it once. -/
theorem merge_limits_defaults_idempotent (limits : Option Limits)
    (h : (match limits with
          | none => true
          | some l => l.isEmptyDict) = true) :
    ((merge_limits_defaults limits).bind fun out =>
        (merge_limits_defaults (some out.result)).map MergeOut.result) =
      (merge_limits_defaults limits).map MergeOut.result := by
  match limits with
  | none => rfl
  | some l =>
    simp only [Limits.isEmptyDict, Bool.and_eq_true, Option.isNone_iff_eq_none] at h
    obtain ⟨⟨⟨⟨h1, h2⟩, h3⟩, h4⟩, h5⟩ := h
    obtain ⟨f1, f2, f3, f4, f5⟩ := l
    simp only at h1 h2 h3 h4 h5
    subst h1 h2 h3 h4 h5
    rfl

/-- C9 witness: the double merge of the absent limit set equals the
single merge. -/
theorem merge_limits_defaults_idempotent_witness :
    ((merge_limits_defaults none).bind fun out =>
        (merge_limits_defaults (some out.result)).map MergeOut.result) =
      (merge_limits_defaults none).map MergeOut.result :=
  merge_limits_defaults_idempotent none (by decide)

/-- C6: for a limit set whose `cputime` key is present, `create_ulimits`
emits a CPU ulimit with soft and hard equal to `cputime` exactly when
`cputime` is truthy (nonzero and non-`None`), emits an fsize ulimit with
soft and hard equal to `file_size` exactly when the `file_size` key is
present, and yields `None` (never the empty list) exactly when neither
entry was emitted. -/
theorem create_ulimits_spec (limits : Limits) (cpuv : PyVal)
    (h : limits.cputime = some cpuv) :
    ∃ r : Option (List Ulimit), create_ulimits limits = Except.ok r ∧
      r ≠ some [] ∧
      (r = none ↔ pyTruthy cpuv = false ∧ limits.file_size = none) ∧
      (∀ lst, r = some lst →
        ((Ulimit.mk "cpu" cpuv cpuv ∈ lst ∧ pyTruthy cpuv = true) ∨
          (pyTruthy cpuv = false ∧ ∀ u ∈ lst, u.name ≠ "cpu"))) ∧
      (∀ lst, r = some lst →
        ((∃ fs, limits.file_size = some fs ∧ Ulimit.mk "fsize" fs fs ∈ lst) ∨
          (limits.file_size = none ∧ ∀ u ∈ lst, u.name ≠ "fsize"))) := by
  unfold create_ulimits
  rw [h]
  by_cases ht : pyTruthy cpuv = true
  · rcases hfs : limits.file_size with _ | fs
    · refine ⟨some [⟨"cpu", cpuv, cpuv⟩], ?_, by simp, by simp [ht], ?_, ?_⟩
      · simp [ht, hfs]
      · intro lst hlst
        injection hlst with hlst
        subst hlst
        exact Or.inl ⟨by simp, ht⟩
      · intro lst hlst
        injection hlst with hlst
        subst hlst
        exact Or.inr ⟨rfl, by simp⟩
    · refine ⟨some [⟨"cpu", cpuv, cpuv⟩, ⟨"fsize", fs, fs⟩], ?_, by simp,
        by simp [ht], ?_, ?_⟩
      · simp [ht, hfs]
      · intro lst hlst
        injection hlst with hlst
        subst hlst
        exact Or.inl ⟨by simp, ht⟩
      · intro lst hlst
        injection hlst with hlst
        subst hlst
        exact Or.inl ⟨fs, rfl, by simp⟩
  · rw [Bool.not_eq_true] at ht
    rcases hfs : limits.file_size with _ | fs
    · refine ⟨none, ?_, by simp, by simp [ht, hfs], by simp, by simp⟩
      simp [ht, hfs]
    · refine ⟨some [⟨"fsize", fs, fs⟩], ?_, by simp, by simp [ht, hfs], ?_, ?_⟩
      · simp [ht, hfs]
      · intro lst hlst
        injection hlst with hlst
        subst hlst
        refine Or.inr ⟨ht, ?_⟩
        simp
      · intro lst hlst
        injection hlst with hlst
        subst hlst
        exact Or.inl ⟨fs, rfl, by simp⟩

/-- C6 witness: `{cputime: 0, file_size: 32}` emits only the fsize
ulimit. -/
theorem create_ulimits_spec_witness :
    ∃ r : Option (List Ulimit),
      create_ulimits { cputime := some (some 0), file_size := some (some 32) } =
        Except.ok r ∧
      r ≠ some [] ∧
      (r = none ↔ pyTruthy (some 0) = false ∧
        ({ cputime := some (some 0),
           file_size := some (some 32) } : Limits).file_size = none) ∧
      (∀ lst, r = some lst →
        ((Ulimit.mk "cpu" (some 0) (some 0) ∈ lst ∧ pyTruthy (some 0) = true) ∨
          (pyTruthy (some 0) = false ∧ ∀ u ∈ lst, u.name ≠ "cpu"))) ∧
      (∀ lst, r = some lst →
        ((∃ fs, ({ cputime := some (some 0),
                   file_size := some (some 32) } : Limits).file_size = some fs ∧
            Ulimit.mk "fsize" fs fs ∈ lst) ∨
          (({ cputime := some (some 0),
              file_size := some (some 32) } : Limits).file_size = none ∧
            ∀ u ∈ lst, u.name ≠ "fsize"))) :=
  create_ulimits_spec { cputime := some (some 0), file_size := some (some 32) }
    (some 0) rfl

end Epicbox

namespace Epicbox

/-! ### Claim theorems: truncation, signal classification, client cache -/

/-- C7: on a result mapping whose `stdout`/`stderr` entries hold byte
strings, `truncate_result` leaves every entry with another key unchanged,
returns a byte string of length at most the cap unchanged, and replaces a
longer one by exactly its first `MAX_OUTPUT_LENGTH` bytes followed by the
fixed marker suffix. -/
theorem truncate_result_spec (result : List (String × PyObjV))
    (h : ∀ p ∈ result, (p.1 = "stdout" ∨ p.1 = "stderr") →
      ∃ bs : Bytes, p.2 = PyObjV.bytes bs) :
    ∃ out, truncate_result result = Except.ok out ∧
      List.Forall₂ (fun a b : String × PyObjV =>
        (a.1 ≠ "stdout" → a.1 ≠ "stderr" → b = a) ∧
        (∀ bs : Bytes, a.2 = PyObjV.bytes bs →
          bs.length ≤ MAX_OUTPUT_LENGTH → b = a) ∧
        (∀ bs : Bytes, (a.1 = "stdout" ∨ a.1 = "stderr") →
          a.2 = PyObjV.bytes bs → MAX_OUTPUT_LENGTH < bs.length →
          b = (a.1, PyObjV.bytes (bs.take MAX_OUTPUT_LENGTH ++ TRUNCATED_MARKER))))
        result out := by
  induction result with
  | nil => exact ⟨[], rfl, List.Forall₂.nil⟩
  | cons p rest ih =>
    obtain ⟨out', hout', hrel⟩ :=
      ih (fun q hq => h q (List.mem_cons_of_mem _ hq))
    obtain ⟨k, v⟩ := p
    by_cases hk : k = "stdout" ∨ k = "stderr"
    · obtain ⟨bs, hbs⟩ := h (k, v) (List.mem_cons_self _ _) hk
      simp only at hbs
      subst hbs
      by_cases hlen : bs.length > MAX_OUTPUT_LENGTH
      · refine ⟨(k, PyObjV.bytes (bs.take MAX_OUTPUT_LENGTH ++ TRUNCATED_MARKER))
          :: out', ?_, ?_⟩
        · simp only [truncate_result, hk, if_pos, hlen, ite_true, hout']
          simp [hk, hlen]
        · refine List.Forall₂.cons ⟨?_, ?_, ?_⟩ hrel
          · intro h1 h2
            rcases hk with hk | hk <;> simp_all
          · intro bs' hbs' hle
            injection hbs' with hbs'
            subst hbs'
            omega
          · intro bs' _ hbs' _
            injection hbs' with hbs'
            subst hbs'
            rfl
      · refine ⟨(k, PyObjV.bytes bs) :: out', ?_, ?_⟩
        · simp only [truncate_result, hout']
          simp [hk, hlen]
        · refine List.Forall₂.cons ⟨?_, ?_, ?_⟩ hrel
          · intro _ _
            rfl
          · intro _ _ _
            rfl
          · intro bs' _ hbs' hgt
            injection hbs' with hbs'
            subst hbs'
            omega
    · push_neg at hk
      refine ⟨(k, v) :: out', ?_, ?_⟩
      · simp only [truncate_result, hout']
        simp [hk.1, hk.2]
      · refine List.Forall₂.cons ⟨?_, ?_, ?_⟩ hrel
        · intro _ _
          rfl
        · intro _ _ _
          rfl
        · intro bs' hor _ _
          rcases hor with hor | hor
          · exact absurd hor hk.1
          · exact absurd hor hk.2

/-- C7 witness: a two-entry result with a 101-byte stdout and an integer
exit code. -/
theorem truncate_result_spec_witness :
    ∃ out, truncate_result
        [("stdout", PyObjV.bytes (List.replicate 101 97)),
         ("exit_code", PyObjV.other 0)] = Except.ok out ∧
      List.Forall₂ (fun a b : String × PyObjV =>
        (a.1 ≠ "stdout" → a.1 ≠ "stderr" → b = a) ∧
        (∀ bs : Bytes, a.2 = PyObjV.bytes bs →
          bs.length ≤ MAX_OUTPUT_LENGTH → b = a) ∧
        (∀ bs : Bytes, (a.1 = "stdout" ∨ a.1 = "stderr") →
          a.2 = PyObjV.bytes bs → MAX_OUTPUT_LENGTH < bs.length →
          b = (a.1, PyObjV.bytes (bs.take MAX_OUTPUT_LENGTH ++ TRUNCATED_MARKER))))
        [("stdout", PyObjV.bytes (List.replicate 101 97)),
         ("exit_code", PyObjV.other 0)] out :=
  truncate_result_spec _ (by
    intro p hp hk
    fin_cases hp
    · exact ⟨List.replicate 101 97, rfl⟩
    · simp at hk)

/-- C8: `is_killed_by_sigkill_or_sigxcpu` returns true exactly when
`status - 128` is 9 (SIGKILL) or 24 (SIGXCPU); in particular it is true
at 137 and 152 and false at 139. -/
theorem is_killed_by_sigkill_or_sigxcpu_spec :
    (∀ status : Int, is_killed_by_sigkill_or_sigxcpu status = true ↔
      (status - 128 = 9 ∨ status - 128 = 24)) ∧
    is_killed_by_sigkill_or_sigxcpu 137 = true ∧
    is_killed_by_sigkill_or_sigxcpu 152 = true ∧
    is_killed_by_sigkill_or_sigxcpu 139 = false := by
  refine ⟨fun status => ?_, by decide, by decide, by decide⟩
  simp [is_killed_by_sigkill_or_sigxcpu, SIGKILL, SIGXCPU]

/-- C10: the client cache is keyed only by
`(retry_read, retry_status_forcelist)`: every call leaves its returned
client cached under that key; a call whose key is already cached returns
the cached client unchanged, whatever `base_url` it was given; and no
call disturbs another key's cached entry.  Together: once a client is
cached for some retry parameters, every later call with those parameters
returns that same client object and its `base_url` argument has no
effect. -/
theorem get_docker_client_cache_spec :
    (∀ (st : ClientCacheState) (u : Option String) (r : Int) (f : List Int),
      lookupClient (r, f) (get_docker_client st u r f).2.cache =
        some (get_docker_client st u r f).1) ∧
    (∀ (st : ClientCacheState) (u : Option String) (r : Int) (f : List Int)
      (c : DockerClient), lookupClient (r, f) st.cache = some c →
      get_docker_client st u r f = (c, st)) ∧
    (∀ (st : ClientCacheState) (u : Option String) (r : Int) (f : List Int)
      (k : Int × List Int) (c : DockerClient),
      lookupClient k st.cache = some c →
      lookupClient k (get_docker_client st u r f).2.cache = some c) := by
  refine ⟨?_, ?_, ?_⟩
  · intro st u r f
    cases hl : lookupClient (r, f) st.cache with
    | some c => simp [get_docker_client, hl]
    | none => simp [get_docker_client, hl, lookupClient]
  · intro st u r f c hl
    simp [get_docker_client, hl]
  · intro st u r f k c hl
    cases hl' : lookupClient (r, f) st.cache with
    | some c' => simp [get_docker_client, hl', hl]
    | none =>
      simp only [get_docker_client, hl', lookupClient]
      by_cases hk : (r, f) = k
      · subst hk
        rw [hl'] at hl
        cases hl
      · rw [if_neg hk]
        exact hl

/-- C10 witness: with a client already cached under key `(2, [500])`, a
call supplying a different `base_url` returns that cached client and
leaves the state unchanged. -/
theorem get_docker_client_cache_spec_witness :
    get_docker_client
        { cache := [((2, [500]),
            { id := 0, base_url := "http://first-url", timeout := 60,
              retry_read := 2, retry_status_forcelist := [500] })],
          nextId := 1 }
        (some "http://second-url") 2 [500] =
      ({ id := 0, base_url := "http://first-url", timeout := 60,
         retry_read := 2, retry_status_forcelist := [500] },
       { cache := [((2, [500]),
           { id := 0, base_url := "http://first-url", timeout := 60,
             retry_read := 2, retry_status_forcelist := [500] })],
         nextId := 1 }) :=
  get_docker_client_cache_spec.2.1
    { cache := [((2, [500]),
        { id := 0, base_url := "http://first-url", timeout := 60,
          retry_read := 2, retry_status_forcelist := [500] })],
      nextId := 1 }
    (some "http://second-url") 2 [500]
    { id := 0, base_url := "http://first-url", timeout := 60,
      retry_read := 2, retry_status_forcelist := [500] }
    (by simp [lookupClient])

end Epicbox

namespace Epicbox

/-! ### Claim theorem for the I/O pump deadline dichotomy -/

/-- Inductive invariant of the `docker_communicate` loop: provided the
trace's final clock reading is past the deadline, the loop ends either by
`break` — returning the demultiplexed accumulated buffer — or by the
`while` condition failing — raising `TimeoutError`; in both cases the
socket is closed, and the container is never stopped. -/
theorem commLoop_spec (t start_time : Nat) (trace : List IterEvent) :
    ∀ (tEnd : Nat) (stdin buf : Bytes) (log : List SockAction)
      (o : CommOutcome) (log2 : List SockAction),
      start_time + t ≤ tEnd →
      commLoop (some t) start_time trace tEnd stdin buf log = (o, log2) →
      ((∃ b, o = CommOutcome.finished (demultiplex_docker_stream b).1
          (demultiplex_docker_stream b).2) ∨ o = CommOutcome.timedOut) ∧
      ∃ suf, log2 = log ++ suf ∧ SockAction.close ∈ suf ∧
        SockAction.containerStop ∉ suf := by
  induction trace with
  | nil =>
    intro tEnd stdin buf log o log2 h heq
    have hd : deadlineOk (some t) start_time tEnd = false := by
      simp only [deadlineOk, decide_eq_false_iff_not]
      omega
    simp only [commLoop, hd, Bool.false_eq_true, if_false] at heq
    injection heq with h1 h2
    subst h1
    subst h2
    exact ⟨Or.inr rfl, [SockAction.close], rfl, by simp, by simp⟩
  | cons ev evs ih =>
    intro tEnd stdin buf log o log2 h heq
    obtain ⟨now, rr, wr, rres, wres⟩ := ev
    simp only [commLoop] at heq
    by_cases hd : deadlineOk (some t) start_time now = true
    · rw [if_pos hd] at heq
      cases rr with
      | false =>
        simp only [Bool.false_eq_true, if_false] at heq
        cases hw : wr && !stdin.isEmpty with
        | false =>
          rw [hw] at heq
          simp only [Bool.false_eq_true, if_false] at heq
          exact ih tEnd stdin buf log o log2 h heq
        | true =>
          rw [hw] at heq
          simp only [if_true] at heq
          cases wres with
          | brokenPipe =>
            simp only [] at heq
            injection heq with h1 h2
            subst h1
            subst h2
            exact ⟨Or.inl ⟨buf, rfl⟩, [SockAction.close], rfl, by simp, by simp⟩
          | written n =>
            simp only [] at heq
            cases hemp : (stdin.drop n).isEmpty with
            | true =>
              rw [hemp] at heq
              simp only [if_true] at heq
              obtain ⟨ho, suf, hsuf, hc, hs⟩ :=
                ih tEnd (stdin.drop n) buf (log ++ [SockAction.shutdownWr])
                  o log2 h heq
              refine ⟨ho, [SockAction.shutdownWr] ++ suf, ?_, by simp [hc],
                by simp [hs]⟩
              rw [hsuf, List.append_assoc]
            | false =>
              rw [hemp] at heq
              simp only [Bool.false_eq_true, if_false] at heq
              exact ih tEnd (stdin.drop n) buf log o log2 h heq
      | true =>
        simp only [if_true] at heq
        cases rres with
        | reset =>
          simp only [] at heq
          injection heq with h1 h2
          subst h1
          subst h2
          exact ⟨Or.inl ⟨buf, rfl⟩, [SockAction.close], rfl, by simp, by simp⟩
        | bytes b =>
          simp only [] at heq
          cases hbe : b.isEmpty with
          | true =>
            rw [hbe] at heq
            simp only [if_true] at heq
            injection heq with h1 h2
            subst h1
            subst h2
            exact ⟨Or.inl ⟨buf, rfl⟩, [SockAction.close], rfl, by simp, by simp⟩
          | false =>
            rw [hbe] at heq
            simp only [Bool.false_eq_true, if_false] at heq
            cases hw : wr && !stdin.isEmpty with
            | false =>
              rw [hw] at heq
              simp only [Bool.false_eq_true, if_false] at heq
              exact ih tEnd stdin (buf ++ b) log o log2 h heq
            | true =>
              rw [hw] at heq
              simp only [if_true] at heq
              cases wres with
              | brokenPipe =>
                simp only [] at heq
                injection heq with h1 h2
                subst h1
                subst h2
                exact ⟨Or.inl ⟨buf ++ b, rfl⟩, [SockAction.close], rfl,
                  by simp, by simp⟩
              | written n =>
                simp only [] at heq
                cases hemp : (stdin.drop n).isEmpty with
                | true =>
                  rw [hemp] at heq
                  simp only [if_true] at heq
                  obtain ⟨ho, suf, hsuf, hc, hs⟩ :=
                    ih tEnd (stdin.drop n) (buf ++ b)
                      (log ++ [SockAction.shutdownWr]) o log2 h heq
                  refine ⟨ho, [SockAction.shutdownWr] ++ suf, ?_, by simp [hc],
                    by simp [hs]⟩
                  rw [hsuf, List.append_assoc]
                | false =>
                  rw [hemp] at heq
                  simp only [Bool.false_eq_true, if_false] at heq
                  exact ih tEnd (stdin.drop n) (buf ++ b) log o log2 h heq
    · rw [Bool.not_eq_true] at hd
      rw [hd] at heq
      simp only [Bool.false_eq_true, if_false] at heq
      injection heq with h1 h2
      subst h1
      subst h2
      exact ⟨Or.inr rfl, [SockAction.close], rfl, by simp, by simp⟩

end Epicbox

namespace Epicbox

/-- C2: for every `docker_communicate` call with a finite timeout (over
any environment trace whose final clock reading is past the deadline),
exactly one of two outcomes occurs and never both: either the session
ends (EOF, connection reset on read, or broken pipe on write) before the
deadline and the demultiplexed accumulated buffer is returned, or the
deadline elapses first and the call raises `TimeoutError`; in both cases
the socket is closed, and the container is never stopped. -/
theorem docker_communicate_deadline_dichotomy
    (stdin : Bytes) (start_container : Bool) (t start_time : Nat)
    (trace : List IterEvent) (tEnd : Nat) (h : start_time + t ≤ tEnd) :
    ((∃ b, (docker_communicate stdin start_container (some t) start_time
        trace tEnd).1 = CommOutcome.finished (demultiplex_docker_stream b).1
          (demultiplex_docker_stream b).2) ↔
      (docker_communicate stdin start_container (some t) start_time
        trace tEnd).1 ≠ CommOutcome.timedOut) ∧
    SockAction.close ∈ (docker_communicate stdin start_container (some t)
      start_time trace tEnd).2 ∧
    SockAction.containerStop ∉ (docker_communicate stdin start_container
      (some t) start_time trace tEnd).2 := by
  obtain ⟨ho, suf, hsuf, hc, hs⟩ := commLoop_spec t start_time trace tEnd
    stdin []
    ((if stdin.isEmpty then [SockAction.shutdownWr] else []) ++
     (if start_container then [SockAction.containerStart] else []))
    (docker_communicate stdin start_container (some t) start_time trace
      tEnd).1
    (docker_communicate stdin start_container (some t) start_time trace
      tEnd).2
    h rfl
  refine ⟨⟨?_, ?_⟩, ?_, ?_⟩
  · rintro ⟨b, hb⟩ hto
    rw [hb] at hto
    cases hto
  · intro hne
    rcases ho with hfin | hto
    · exact hfin
    · exact absurd hto hne
  · rw [hsuf]
    exact List.mem_append_right _ hc
  · rw [hsuf]
    have hlog0 : SockAction.containerStop ∉
        (if stdin.isEmpty then [SockAction.shutdownWr] else []) ++
        (if start_container then [SockAction.containerStart] else []) := by
      cases stdin.isEmpty <;> cases start_container <;> simp
    intro hmem
    rcases List.mem_append.mp hmem with h1 | h2
    · exact hlog0 h1
    · exact hs h2

/-- C2 witness: a session that reaches EOF at time 1 under a 5-second
deadline checked finally at time 10. -/
theorem docker_communicate_deadline_dichotomy_witness :
    ((∃ b, (docker_communicate [120] true (some 5) 0
        [⟨1, true, false, ReadRes.bytes [], WriteRes.written 0⟩] 10).1 =
          CommOutcome.finished (demultiplex_docker_stream b).1
            (demultiplex_docker_stream b).2) ↔
      (docker_communicate [120] true (some 5) 0
        [⟨1, true, false, ReadRes.bytes [], WriteRes.written 0⟩] 10).1 ≠
          CommOutcome.timedOut) ∧
    SockAction.close ∈ (docker_communicate [120] true (some 5) 0
      [⟨1, true, false, ReadRes.bytes [], WriteRes.written 0⟩] 10).2 ∧
    SockAction.containerStop ∉ (docker_communicate [120] true (some 5) 0
      [⟨1, true, false, ReadRes.bytes [], WriteRes.written 0⟩] 10).2 :=
  docker_communicate_deadline_dichotomy [120] true 5 0
    [⟨1, true, false, ReadRes.bytes [], WriteRes.written 0⟩] 10 (by decide)

end Epicbox
